import Mathlib

/-!
Shallow embedding of `src/lib.rs` of the rgpy repository: a pattern is
compiled once into a `MatcherWrapper` exposing a pure per-line predicate,
which `search_file` applies to one file's lines and `search_dir` applies to
every regular file found under a directory root.  External collaborators
(the `regex` crate builder, the filesystem, the `WalkDir` iterator and the
rayon scheduler) enter the embedding as explicit parameters; everything else
is translated line by line from the Rust source.
-/

namespace Rgpy

/-- Model of a compiled pattern produced by the external `regex` crate
builder: the engine only ever uses its pure `is_match` predicate. -/
structure CompiledRegex where
  is_match : String → Bool

/-- Embeds `enum MatcherType` of src/lib.rs for a build without the optional
`pcre` cargo feature: `cfg(feature = "pcre")` removes the `Pcre2` variant, so
only `Regex` remains. -/
inductive MatcherType where
  | Regex (re : CompiledRegex)

/-- Embeds `MatcherType::is_match`: dispatch on the (single) variant and ask
the compiled engine. -/
def MatcherType.is_match : MatcherType → String → Bool
  | MatcherType.Regex re, text => re.is_match text

/-- Embeds `pub struct MatchEntry`: source path, 1-based line number, line
text without its terminator. -/
structure MatchEntry where
  path : String
  line_number : Nat
  text : String
deriving DecidableEq

/-- Embeds `pub struct MatcherWrapper`: the compiled matcher is its only
state. -/
structure MatcherWrapper where
  matcher : MatcherType

/-- Result of one item of `BufReader::lines()`: `some text` when the line
decoded (`Ok`), `none` when it did not (`Err`, later dropped by
`line.ok()`). -/
abbrev Line := Option String

/-- File content as the sequence of per-line read results. -/
abbrev FileContent := List Line

/-- Filesystem model for `File::open` followed by `BufReader::lines`: a path
either opens and yields its line sequence, or fails with the OS error
message (`e.to_string()`). -/
abbrev FS := String → Except String FileContent

/-- Embeds `MatcherWrapper::new` for a build without the `pcre` feature.
`regexBuild` stands for the external `regex::RegexBuilder` call (pattern and
`case_insensitive` flag); the rest is the body of `new`: defaults are
applied with `unwrap_or`, `use_pcre` compares the selector with "pcre2", the
pcre branch lands on `cfg(not(feature = "pcre"))` and returns its error at
once, and the default branch builds a `Regex` matcher, turning a build
failure into the `Invalid regex` message. -/
def MatcherWrapper.new (regexBuild : String → Bool → Except String CompiledRegex)
    (pattern : String) (ignore_case : Option Bool) (engine : Option String) :
    Except String MatcherWrapper :=
  let ignore_case := ignore_case.getD false
  let use_pcre := engine.getD "regex" == "pcre2"
  if use_pcre then
    Except.error "pcre2 engine not enabled"
  else
    match regexBuild pattern ignore_case with
    | Except.error e => Except.error ("Invalid regex: " ++ e)
    | Except.ok re => Except.ok { matcher := MatcherType.Regex re }

/-- Embeds the per-line closure that `search_file` and `search_dir` both
contain verbatim: `line.ok().and_then(|text| ...)` keeps a decoded line iff
`self.matcher.is_match(&text) ^ invert`, and builds the MatchEntry with the
1-based number `i + 1`. -/
def lineHit (matcher : MatcherType) (invert : Bool) (path : String) :
    Nat × Line → Option MatchEntry
  | (i, line) =>
    line.bind fun text =>
      if Bool.xor (matcher.is_match text) invert then
        some { path := path, line_number := i + 1, text := text }
      else
        none

/-- The scan of one already-enumerated work list: `filter_map` with
`lineHit` over `(index, line)` pairs, exactly the iterator pipeline both
search methods run after `enumerate()`. -/
def MatcherWrapper.scan (self : MatcherWrapper) (path : String) (invert : Bool)
    (work : List (Nat × Line)) : List MatchEntry :=
  work.filterMap (lineHit self.matcher invert path)

/-- The sequential reading of one file: `lines().enumerate()` then the
shared filter, in original order.  This is literally the inner loop of
`search_dir` (which iterates lines sequentially), and the order-normal form
of the `search_file` pipeline. -/
def MatcherWrapper.file_results (self : MatcherWrapper) (path : String)
    (invert : Bool) (lines : FileContent) : List MatchEntry :=
  self.scan path invert lines.enum

/-- A scheduler models the reordering rayon's `par_bridge()` plus `collect()`
impose on `search_file`: worker threads pull the enumerated items and the
collected vector concatenates per-thread outputs, so the items reach the
filter in some permutation of their original order, chosen by the runtime
scheduler. -/
def IsSched (sched : List (Nat × Line) → List (Nat × Line)) : Prop :=
  ∀ work, (sched work).Perm work

/-- The identity scheduler: the sequential-order reading. -/
def seqSched : List (Nat × Line) → List (Nat × Line) := fun work => work

/-- Result shape of one search call: the `count` flag selects a bare count,
otherwise the vector of entries is handed back. -/
inductive ScanResult where
  | matches (entries : List MatchEntry)
  | count (n : Nat)
deriving DecidableEq

/-- Embeds `MatcherWrapper::search_file`.  A `File::open` failure becomes a
`PyValueError` carrying the OS message and aborts the whole call; otherwise
the enumerated lines, in the order the scheduler hands them over, run
through the shared filter, and the `count` flag (default false) picks the
returned shape, counting with `results.len()`. -/
def MatcherWrapper.search_file (self : MatcherWrapper)
    (sched : List (Nat × Line) → List (Nat × Line)) (fs : FS) (path : String)
    (count : Option Bool) (invert_match : Option Bool) :
    Except String ScanResult :=
  match fs path with
  | Except.error e => Except.error e
  | Except.ok lines =>
    let invert := invert_match.getD false
    let results := self.scan path invert (sched lines.enum)
    if count.getD false then
      Except.ok (ScanResult.count results.length)
    else
      Except.ok (ScanResult.matches results)

/-- One entry yielded by the external `WalkDir` iterator: its path (as
`e.path().display().to_string()`) and whether `e.file_type().is_file()`. -/
structure DirEntry where
  path : String
  is_file : Bool
deriving DecidableEq

/-- The walk of a root: the sequence of entries `WalkDir::new(dir)` yields,
an `Err` item (carrying its message) for each entry the traversal could not
read — in particular a root that cannot be traversed at all yields only
`Err` items. -/
abbrev WalkResult := List (Except String DirEntry)

/-- The list of matches `search_dir` accumulates: errored walk entries are
dropped by `filter_map(|e| e.ok())`, non-files by `filter`, and every kept
path is opened and scanned sequentially by the inner loop, an unopenable
file contributing `vec![]`.  rayon's `par_iter` over the entries vector is
index-preserving, so the parallel `flat_map ... collect` concatenates the
per-file blocks in walk order. -/
def MatcherWrapper.dir_results (self : MatcherWrapper) (fs : FS)
    (walk : WalkResult) (invert : Bool) : List MatchEntry :=
  let entries :=
    ((walk.filterMap Except.toOption).filter (fun e => e.is_file)).map DirEntry.path
  entries.flatMap fun path_str =>
    match fs path_str with
    | Except.ok lines => self.file_results path_str invert lines
    | Except.error _ => []

/-- Embeds `MatcherWrapper::search_dir`: walk, scan every readable regular
file, and shape the aggregate by the `count` flag.  The body has no failing
path, which the return type records. -/
def MatcherWrapper.search_dir (self : MatcherWrapper) (fs : FS)
    (walk : WalkResult) (count : Option Bool) (invert_match : Option Bool) :
    ScanResult :=
  let results := self.dir_results fs walk (invert_match.getD false)
  if count.getD false then
    ScanResult.count results.length
  else
    ScanResult.matches results

/-- Embeds the module-level `compile` function: it only forwards to
`MatcherWrapper::new`. -/
def compile (regexBuild : String → Bool → Except String CompiledRegex)
    (pattern : String) (ignore_case : Option Bool) (engine : Option String) :
    Except String MatcherWrapper :=
  MatcherWrapper.new regexBuild pattern ignore_case engine

/-- Decidable equality on `Except`, so that concrete search outcomes can be
evaluated inside witnesses. -/
instance {ε α : Type} [DecidableEq ε] [DecidableEq α] : DecidableEq (Except ε α) :=
  fun a b =>
    match a, b with
    | Except.error x, Except.error y =>
      if h : x = y then isTrue (by rw [h]) else
        isFalse (fun hh => h (Except.error.inj hh))
    | Except.error _, Except.ok _ => isFalse (fun hh => Except.noConfusion hh)
    | Except.ok _, Except.error _ => isFalse (fun hh => Except.noConfusion hh)
    | Except.ok x, Except.ok y =>
      if h : x = y then isTrue (by rw [h]) else
        isFalse (fun hh => h (Except.ok.inj hh))

/-- Concrete compiled pattern used by the witnesses, with the acceptance
behavior of the spec scenario's pattern "foo" on its demo lines: it accepts
the texts "foo" and "foobar" and rejects everything else. -/
def fooRegex : CompiledRegex :=
  { is_match := fun s => s == "foo" || s == "foobar" }

/-- Concrete matcher wrapper for the witnesses. -/
def fooWrapper : MatcherWrapper :=
  { matcher := MatcherType.Regex fooRegex }

/-- The file of the spec scenario: lines "foo", "bar", "foobar", all of which
decode. -/
def demoLines : FileContent := [some "foo", some "bar", some "foobar"]

/-- A one-file filesystem binding path "a.txt" to the demo lines. -/
def demoFS : FS := fun p =>
  if p == "a.txt" then Except.ok demoLines else Except.error "No such file"

/-- A scheduler that reverses the work list: a legitimate outcome of
`par_bridge` in which later lines are collected before earlier ones. -/
def revSched : List (Nat × Line) → List (Nat × Line) := fun work => work.reverse

/-- Scanning two work lists that are permutations of one another yields
permuted results: `filter_map` respects permutation. -/
theorem scan_perm (self : MatcherWrapper) (path : String) (invert : Bool)
    {w1 w2 : List (Nat × Line)} (h : w1.Perm w2) :
    (self.scan path invert w1).Perm (self.scan path invert w2) :=
  h.filterMap _

/-- Characterization of the shared per-line filter: it emits an entry
exactly when the line decoded and the XOR rule accepted it. -/
theorem lineHit_eq_some (matcher : MatcherType) (invert : Bool) (path : String)
    (i : Nat) (line : Line) (e : MatchEntry) :
    lineHit matcher invert path (i, line) = some e ↔
      ∃ text, line = some text ∧ Bool.xor (matcher.is_match text) invert = true
        ∧ e = ⟨path, i + 1, text⟩ := by
  cases line with
  | none => simp [lineHit]
  | some text =>
    by_cases h : Bool.xor (matcher.is_match text) invert = true
    · simp only [lineHit, Option.some_bind, if_pos h, Option.some_inj]
      constructor
      · intro h2
        exact ⟨text, rfl, h, h2.symm⟩
      · rintro ⟨t, ht, hx, he⟩
        cases ht
        exact he.symm
    · simp only [lineHit, Option.some_bind, if_neg h]
      constructor
      · intro h2
        exact Option.noConfusion h2
      · rintro ⟨t, ht, hx, he⟩
        cases ht
        exact absurd hx h

/-- Membership in a scan, unfolded to the work-list level. -/
theorem mem_scan (self : MatcherWrapper) (path : String) (invert : Bool)
    (work : List (Nat × Line)) (e : MatchEntry) :
    e ∈ self.scan path invert work ↔
      ∃ i line, (i, line) ∈ work
        ∧ lineHit self.matcher invert path (i, line) = some e := by
  simp only [MatcherWrapper.scan, List.mem_filterMap, Prod.exists]

/-- Membership in the sequential scan of a file, phrased on the file's
content: an entry is produced exactly from a decoded line accepted by the
XOR rule, carrying that line's 1-based ordinal. -/
theorem mem_file_results (self : MatcherWrapper) (path : String) (invert : Bool)
    (lines : FileContent) (e : MatchEntry) :
    e ∈ self.file_results path invert lines ↔
      ∃ i text, lines[i]? = some (some text)
        ∧ Bool.xor (self.matcher.is_match text) invert = true
        ∧ e = ⟨path, i + 1, text⟩ := by
  rw [MatcherWrapper.file_results, mem_scan]
  constructor
  · rintro ⟨i, line, hmem, hhit⟩
    rw [List.mk_mem_enum_iff_getElem?] at hmem
    obtain ⟨text, hline, hxor, he⟩ := (lineHit_eq_some _ _ _ _ _ _).mp hhit
    exact ⟨i, text, by rw [hmem, hline], hxor, he⟩
  · rintro ⟨i, text, hget, hxor, he⟩
    refine ⟨i, some text, List.mk_mem_enum_iff_getElem?.mpr hget, ?_⟩
    exact (lineHit_eq_some _ _ _ _ _ _).mpr ⟨text, rfl, hxor, he⟩

/-- Reduction of `search_file` on a path whose open fails. -/
theorem search_file_error (self : MatcherWrapper)
    (sched : List (Nat × Line) → List (Nat × Line)) (fs : FS) (path : String)
    (count invert_match : Option Bool) (e : String) (h : fs path = Except.error e) :
    self.search_file sched fs path count invert_match = Except.error e := by
  unfold MatcherWrapper.search_file
  rw [h]

/-- Reduction of `search_file` in list mode on a readable path. -/
theorem search_file_list (self : MatcherWrapper)
    (sched : List (Nat × Line) → List (Nat × Line)) (fs : FS) (path : String)
    (invert_match : Option Bool) (lines : FileContent)
    (h : fs path = Except.ok lines) :
    self.search_file sched fs path (some false) invert_match
      = Except.ok (ScanResult.matches
          (self.scan path (invert_match.getD false) (sched lines.enum))) := by
  unfold MatcherWrapper.search_file
  rw [h]
  rfl

/-- Reduction of `search_file` in count mode on a readable path. -/
theorem search_file_count (self : MatcherWrapper)
    (sched : List (Nat × Line) → List (Nat × Line)) (fs : FS) (path : String)
    (invert_match : Option Bool) (lines : FileContent)
    (h : fs path = Except.ok lines) :
    self.search_file sched fs path (some true) invert_match
      = Except.ok (ScanResult.count
          (self.scan path (invert_match.getD false) (sched lines.enum)).length) := by
  unfold MatcherWrapper.search_file
  rw [h]
  rfl

/-- C6: compiling with engine "pcre2" in a build that lacks the optional
engine fails immediately with the engine-unavailable error (which the spec
names `EngineUnavailableError`), produces no matcher, and never falls back
to the default engine — for every pattern, ignore_case setting and
underlying regex builder. -/
theorem c6_pcre2_unavailable
    (regexBuild : String → Bool → Except String CompiledRegex)
    (pattern : String) (ignore_case : Option Bool) :
    compile regexBuild pattern ignore_case (some "pcre2")
      = Except.error "pcre2 engine not enabled" := rfl

/-- C7: `search_file` fails the whole call, propagating the IO error, as
soon as the path cannot be opened and read, and returns no partial result —
for every matcher, scheduler, filesystem and flag combination. -/
theorem c7_search_file_io_error (self : MatcherWrapper)
    (sched : List (Nat × Line) → List (Nat × Line)) (fs : FS) (path : String)
    (count invert_match : Option Bool) (e : String)
    (h : fs path = Except.error e) :
    self.search_file sched fs path count invert_match = Except.error e :=
  search_file_error self sched fs path count invert_match e h

/-- Witness for C7: the demo filesystem has no file "missing.txt", and the
call fails with that error. -/
theorem c7_search_file_io_error_witness :
    fooWrapper.search_file seqSched demoFS "missing.txt" none none
      = Except.error "No such file" :=
  c7_search_file_io_error fooWrapper seqSched demoFS "missing.txt" none none
    "No such file" rfl

/-- C9: any engine selector other than "pcre2" — absent, "regex", or an
unrecognized name such as "foo" — selects the default regex engine: the
call fails exactly when the pattern fails to build (with the invalid-regex
error), and otherwise returns the default-engine matcher. The engine name
itself never rejects the call. -/
theorem c9_default_engine
    (regexBuild : String → Bool → Except String CompiledRegex)
    (pattern : String) (ignore_case : Option Bool) (engine : Option String)
    (h : engine.getD "regex" ≠ "pcre2") :
    (∀ e, regexBuild pattern (ignore_case.getD false) = Except.error e →
      compile regexBuild pattern ignore_case engine
        = Except.error ("Invalid regex: " ++ e))
    ∧ (∀ re, regexBuild pattern (ignore_case.getD false) = Except.ok re →
      compile regexBuild pattern ignore_case engine
        = Except.ok { matcher := MatcherType.Regex re }) := by
  have hb : (engine.getD "regex" == "pcre2") = false := beq_eq_false_iff_ne.mpr h
  constructor
  · intro e he
    simp [compile, MatcherWrapper.new, hb, he]
  · intro re hre
    simp [compile, MatcherWrapper.new, hb, hre]

/-- Witness for C9: the unrecognized selector "foo" with an always
succeeding builder yields the default-engine matcher. -/
theorem c9_default_engine_witness :
    compile (fun _ _ => Except.ok fooRegex) "foo" none (some "foo")
      = Except.ok { matcher := MatcherType.Regex fooRegex } :=
  (c9_default_engine (fun _ _ => Except.ok fooRegex) "foo" none (some "foo")
    (by decide)).2 fooRegex rfl

/-- C2: for every matcher, filesystem, path, walk and flag setting — and,
for files, any pair of scheduler orders the two runs may see — the
count-mode call returns exactly the length of the collection the list-mode
call returns, for `search_file` and `search_dir` alike. -/
theorem c2_count_is_length (self : MatcherWrapper) (fs : FS) (path : String)
    (walk : WalkResult) (invert_match : Option Bool)
    (sched1 sched2 : List (Nat × Line) → List (Nat × Line))
    (h1 : IsSched sched1) (h2 : IsSched sched2) :
    (∀ entries, self.search_file sched1 fs path (some false) invert_match
        = Except.ok (ScanResult.matches entries) →
      self.search_file sched2 fs path (some true) invert_match
        = Except.ok (ScanResult.count entries.length))
    ∧ (∀ entries, self.search_dir fs walk (some false) invert_match
        = ScanResult.matches entries →
      self.search_dir fs walk (some true) invert_match
        = ScanResult.count entries.length) := by
  constructor
  · intro entries hlist
    cases hfs : fs path with
    | error e =>
      rw [search_file_error self sched1 fs path (some false) invert_match e hfs]
        at hlist
      exact Except.noConfusion hlist
    | ok lines =>
      rw [search_file_list self sched1 fs path invert_match lines hfs] at hlist
      have hentries : entries
          = self.scan path (invert_match.getD false) (sched1 lines.enum) :=
        (ScanResult.matches.inj (Except.ok.inj hlist)).symm
      rw [search_file_count self sched2 fs path invert_match lines hfs, hentries]
      have hperm : (self.scan path (invert_match.getD false) (sched2 lines.enum)).Perm
          (self.scan path (invert_match.getD false) (sched1 lines.enum)) :=
        scan_perm _ _ _ ((h2 lines.enum).trans (h1 lines.enum).symm)
      rw [hperm.length_eq]
  · intro entries hlist
    have hentries : entries = self.dir_results fs walk (invert_match.getD false) :=
      (ScanResult.matches.inj hlist).symm
    rw [hentries]
    rfl

/-- Witness for C2 on the demo file: the list-mode call returns the two
entries of the spec scenario, and the count-mode call returns 2. -/
theorem c2_count_is_length_witness :
    fooWrapper.search_file seqSched demoFS "a.txt" (some true) none
      = Except.ok (ScanResult.count 2) :=
  (c2_count_is_length fooWrapper demoFS "a.txt" [] none seqSched seqSched
      (fun w => List.Perm.refl w) (fun w => List.Perm.refl w)).1
    [⟨"a.txt", 1, "foo"⟩, ⟨"a.txt", 3, "foobar"⟩] (by decide)

/-- C10: when the root cannot be traversed at all, the walk iterator yields
only error entries, and `search_dir` then returns the empty list (or count
0) — and, by its return type, it has no failing path at all. -/
theorem c10_untraversable_root (self : MatcherWrapper) (fs : FS)
    (walk : WalkResult) (invert_match : Option Bool)
    (h : ∀ x ∈ walk, ∃ e, x = Except.error e) :
    self.search_dir fs walk (some false) invert_match = ScanResult.matches []
      ∧ self.search_dir fs walk (some true) invert_match = ScanResult.count 0 := by
  have hnil : self.dir_results fs walk (invert_match.getD false) = [] := by
    unfold MatcherWrapper.dir_results
    have hfm : walk.filterMap Except.toOption = [] := by
      rw [List.filterMap_eq_nil_iff]
      intro x hx
      obtain ⟨e, rfl⟩ := h x hx
      rfl
    rw [hfm]
    rfl
  constructor
  · show ScanResult.matches (self.dir_results fs walk (invert_match.getD false))
      = ScanResult.matches []
    rw [hnil]
  · show ScanResult.count
        (self.dir_results fs walk (invert_match.getD false)).length
      = ScanResult.count 0
    rw [hnil]
    rfl

/-- Witness for C10: a walk consisting of one permission-denied entry gives
count 0. -/
theorem c10_untraversable_root_witness :
    fooWrapper.search_dir demoFS [Except.error "permission denied"] (some true) none
      = ScanResult.count 0 :=
  (c10_untraversable_root fooWrapper demoFS [Except.error "permission denied"] none
    (by
      intro x hx
      rw [List.mem_singleton] at hx
      exact ⟨"permission denied", hx⟩)).2

/-- The `e.ok()` view of a walkdir item: it is `some` exactly of the ok
entry. -/
theorem toOption_eq_some {ε α : Type} (x : Except ε α) (a : α) :
    x.toOption = some a ↔ x = Except.ok a := by
  cases x <;> simp [Except.toOption]

/-- Membership in the aggregate of a directory scan: an entry comes from a
readable regular file among the ok walk entries, via the sequential scan of
that file. -/
theorem mem_dir_results (self : MatcherWrapper) (fs : FS) (walk : WalkResult)
    (invert : Bool) (e : MatchEntry) :
    e ∈ self.dir_results fs walk invert ↔
      ∃ d, Except.ok d ∈ walk ∧ d.is_file = true
        ∧ ∃ ls, fs d.path = Except.ok ls
          ∧ e ∈ self.file_results d.path invert ls := by
  show e ∈ (((walk.filterMap Except.toOption).filter
      (fun x => x.is_file)).map DirEntry.path).flatMap _ ↔ _
  rw [List.mem_flatMap]
  constructor
  · rintro ⟨p, hp, he⟩
    obtain ⟨d, hd, rfl⟩ := List.mem_map.mp hp
    obtain ⟨hdmem, hdfile⟩ := List.mem_filter.mp hd
    obtain ⟨x, hxw, hxd⟩ := List.mem_filterMap.mp hdmem
    cases hfsd : fs d.path with
    | error err =>
      rw [hfsd] at he
      exact absurd he (List.not_mem_nil e)
    | ok ls =>
      rw [hfsd] at he
      exact ⟨d, (toOption_eq_some x d).mp hxd ▸ hxw, hdfile, ls, hfsd, he⟩
  · rintro ⟨d, hdw, hdfile, ls, hfsd, he⟩
    refine ⟨d.path, List.mem_map.mpr ⟨d, List.mem_filter.mpr
      ⟨List.mem_filterMap.mpr ⟨Except.ok d, hdw, rfl⟩, hdfile⟩, rfl⟩, ?_⟩
    rw [hfsd]
    exact he

/-- C1: both search methods include a line by the single XOR rule and by
nothing else: for any scheduler order, an entry is in the list returned by
`search_file` iff it names a decoded line of the file whose text satisfies
`is_match XOR invert`, and an entry is in the list returned by `search_dir`
iff it does so for some readable regular file among the walked entries. -/
theorem c1_xor_inclusion (self : MatcherWrapper)
    (sched : List (Nat × Line) → List (Nat × Line)) (fs : FS) (path : String)
    (lines : FileContent) (walk : WalkResult) (invert : Bool)
    (hsched : IsSched sched) (hfs : fs path = Except.ok lines) :
    (∀ res, self.search_file sched fs path (some false) (some invert)
        = Except.ok (ScanResult.matches res) →
      ∀ e, e ∈ res ↔
        ∃ i text, lines[i]? = some (some text)
          ∧ Bool.xor (self.matcher.is_match text) invert = true
          ∧ e = ⟨path, i + 1, text⟩)
    ∧ (∀ res, self.search_dir fs walk (some false) (some invert)
        = ScanResult.matches res →
      ∀ e, e ∈ res ↔
        ∃ d, Except.ok d ∈ walk ∧ d.is_file = true
          ∧ ∃ ls, fs d.path = Except.ok ls
            ∧ ∃ i text, ls[i]? = some (some text)
              ∧ Bool.xor (self.matcher.is_match text) invert = true
              ∧ e = ⟨d.path, i + 1, text⟩) := by
  constructor
  · intro res hres e
    rw [search_file_list self sched fs path (some invert) lines hfs] at hres
    have hr : res = self.scan path invert (sched lines.enum) :=
      (ScanResult.matches.inj (Except.ok.inj hres)).symm
    rw [hr, (scan_perm self path invert (hsched lines.enum)).mem_iff]
    exact mem_file_results self path invert lines e
  · intro res hres e
    have hr : res = self.dir_results fs walk invert :=
      (ScanResult.matches.inj hres).symm
    rw [hr, mem_dir_results]
    constructor
    · rintro ⟨d, hdw, hdf, ls, hfsd, he⟩
      obtain ⟨i, text, hget, hxor, rfl⟩ :=
        (mem_file_results self d.path invert ls e).mp he
      exact ⟨d, hdw, hdf, ls, hfsd, i, text, hget, hxor, rfl⟩
    · rintro ⟨d, hdw, hdf, ls, hfsd, i, text, hget, hxor, rfl⟩
      exact ⟨d, hdw, hdf, ls, hfsd,
        (mem_file_results self d.path invert ls _).mpr ⟨i, text, hget, hxor, rfl⟩⟩

/-- Witness for C1 at the demo scenario: the entry for line 1, "foo", is in
the returned list because the matcher accepts "foo" and invert is false. -/
theorem c1_xor_inclusion_witness :
    ∃ i text, demoLines[i]? = some (some text)
      ∧ Bool.xor (fooWrapper.matcher.is_match text) false = true
      ∧ (⟨"a.txt", 1, "foo"⟩ : MatchEntry) = ⟨"a.txt", i + 1, text⟩ :=
  ((c1_xor_inclusion fooWrapper seqSched demoFS "a.txt" demoLines [] false
      (fun w => List.Perm.refl w) rfl).1
    [⟨"a.txt", 1, "foo"⟩, ⟨"a.txt", 3, "foobar"⟩] (by decide)
    ⟨"a.txt", 1, "foo"⟩).mp (by decide)

/-- C5: every returned entry carries as line_number exactly the 1-based
ordinal of its text in the original content of its source file, whatever
order the scheduler used — for `search_file` on the opened file, and for
`search_dir` on whichever file of the walk the entry's path names. -/
theorem c5_line_numbers (self : MatcherWrapper)
    (sched : List (Nat × Line) → List (Nat × Line)) (fs : FS) (path : String)
    (lines : FileContent) (walk : WalkResult) (invert_match : Option Bool)
    (hsched : IsSched sched) (hfs : fs path = Except.ok lines) :
    (∀ res, self.search_file sched fs path (some false) invert_match
        = Except.ok (ScanResult.matches res) →
      ∀ e ∈ res, 1 ≤ e.line_number
        ∧ lines[e.line_number - 1]? = some (some e.text) ∧ e.path = path)
    ∧ (∀ res, self.search_dir fs walk (some false) invert_match
        = ScanResult.matches res →
      ∀ e ∈ res, ∃ ls, fs e.path = Except.ok ls
        ∧ 1 ≤ e.line_number ∧ ls[e.line_number - 1]? = some (some e.text)) := by
  constructor
  · intro res hres e he
    rw [search_file_list self sched fs path invert_match lines hfs] at hres
    have hr : res = self.scan path (invert_match.getD false) (sched lines.enum) :=
      (ScanResult.matches.inj (Except.ok.inj hres)).symm
    rw [hr, (scan_perm self path _ (hsched lines.enum)).mem_iff] at he
    obtain ⟨i, text, hget, hxor, rfl⟩ :=
      (mem_file_results self path _ lines e).mp he
    exact ⟨Nat.le_add_left 1 i, by simpa using hget, rfl⟩
  · intro res hres e he
    have hr : res = self.dir_results fs walk (invert_match.getD false) :=
      (ScanResult.matches.inj hres).symm
    rw [hr, mem_dir_results] at he
    obtain ⟨d, hdw, hdf, ls, hfsd, hin⟩ := he
    obtain ⟨i, text, hget, hxor, rfl⟩ :=
      (mem_file_results self d.path _ ls _).mp hin
    exact ⟨ls, hfsd, Nat.le_add_left 1 i, by simpa using hget⟩

/-- Witness for C5 at the demo scenario: the entry reported for "foobar"
carries line number 3, and line 3 of the file is indeed "foobar". -/
theorem c5_line_numbers_witness :
    1 ≤ (⟨"a.txt", 3, "foobar"⟩ : MatchEntry).line_number
      ∧ demoLines[(⟨"a.txt", 3, "foobar"⟩ : MatchEntry).line_number - 1]?
          = some (some (⟨"a.txt", 3, "foobar"⟩ : MatchEntry).text)
      ∧ (⟨"a.txt", 3, "foobar"⟩ : MatchEntry).path = "a.txt" :=
  (c5_line_numbers fooWrapper seqSched demoFS "a.txt" demoLines [] none
      (fun w => List.Perm.refl w) rfl).1
    [⟨"a.txt", 1, "foo"⟩, ⟨"a.txt", 3, "foobar"⟩] (by decide)
    ⟨"a.txt", 3, "foobar"⟩ (by decide)

/-- On any work list, the plain scan and the inverted scan split the decoded
items between them, so their lengths add up to the number of decoded
items. -/
theorem scan_count_split (self : MatcherWrapper) (path : String)
    (work : List (Nat × Line)) :
    (self.scan path false work).length + (self.scan path true work).length
      = (work.filterMap Prod.snd).length := by
  induction work with
  | nil => rfl
  | cons hd tl ih =>
    obtain ⟨i, line⟩ := hd
    cases line with
    | none =>
      simpa [MatcherWrapper.scan, lineHit, List.filterMap_cons] using ih
    | some text =>
      cases hm : self.matcher.is_match text with
      | false =>
        simp [MatcherWrapper.scan, lineHit, List.filterMap_cons, hm] at ih ⊢
        omega
      | true =>
        simp [MatcherWrapper.scan, lineHit, List.filterMap_cons, hm] at ih ⊢
        omega

/-- The decoded items of the enumerated lines are the decoded lines. -/
theorem enum_filterMap_snd (lines : FileContent) :
    lines.enum.filterMap Prod.snd = lines.filterMap id := by
  rw [show (Prod.snd : Nat × Line → Option String) = (id ∘ Prod.snd) from rfl,
    ← List.filterMap_map, List.enum_map_snd]

/-- A list of read results in which every line decoded has as many decoded
items as lines. -/
theorem filterMap_id_length_all_some (lines : FileContent)
    (h : ∀ l ∈ lines, l.isSome = true) :
    (lines.filterMap id).length = lines.length := by
  induction lines with
  | nil => rfl
  | cons hd tl ih =>
    cases hd with
    | none => exact absurd (h none (List.mem_cons_self _ _)) (by simp)
    | some text =>
      simp only [List.filterMap_cons, id, List.length_cons]
      rw [ih (fun l hl => h l (List.mem_cons_of_mem _ hl))]

/-- C3 (amended): the inverted scan is the exact complement of the plain
scan over the decoded lines — each decoded line's entry lies in exactly one
of the two results — and the two counts add up to the number of decoded
lines, hence to the file's total line count whenever every line decodes. -/
theorem c3_invert_complement (self : MatcherWrapper) (path : String)
    (lines : FileContent) :
    (self.file_results path false lines).length
        + (self.file_results path true lines).length
      = (lines.filterMap id).length
    ∧ (∀ i text, lines[i]? = some (some text) →
        ((⟨path, i + 1, text⟩ : MatchEntry) ∈ self.file_results path false lines
          ↔ ¬ (⟨path, i + 1, text⟩ : MatchEntry) ∈ self.file_results path true lines))
    ∧ ((∀ l ∈ lines, l.isSome = true) →
        (self.file_results path false lines).length
            + (self.file_results path true lines).length
          = lines.length) := by
  have hcount : (self.file_results path false lines).length
      + (self.file_results path true lines).length
      = (lines.filterMap id).length := by
    rw [MatcherWrapper.file_results, MatcherWrapper.file_results,
      scan_count_split, enum_filterMap_snd]
  have hmem : ∀ invert : Bool, ∀ i text, lines[i]? = some (some text) →
      ((⟨path, i + 1, text⟩ : MatchEntry) ∈ self.file_results path invert lines
        ↔ Bool.xor (self.matcher.is_match text) invert = true) := by
    intro invert i text hget
    rw [mem_file_results]
    constructor
    · rintro ⟨j, t, hg, hx, he⟩
      have hinj := (MatchEntry.mk.injEq path (i + 1) text path (j + 1) t).mp he
      obtain ⟨-, hij, ht⟩ := hinj
      have hji : j = i := by omega
      subst hji
      subst ht
      exact hx
    · intro hx
      exact ⟨i, text, hget, hx, rfl⟩
  refine ⟨hcount, ?_, ?_⟩
  · intro i text hget
    rw [hmem false i text hget, hmem true i text hget]
    cases self.matcher.is_match text <;> simp
  · intro hall
    rw [hcount, filterMap_id_length_all_some lines hall]

/-- Counterexample to C3 as stated: a one-line file whose single line fails
to decode has total line count 1, but the line is skipped in both modes, so
the two counts sum to 0, not to the total line count. -/
theorem c3_total_counterexample :
    ¬ ((fooWrapper.file_results "a.txt" false [none]).length
        + (fooWrapper.file_results "a.txt" true [none]).length
      = ([none] : FileContent).length) := by decide

/-- Witness for C3 (amended) on the demo file, where every line decodes: the
two counts sum to the total line count 3. -/
theorem c3_invert_complement_witness :
    (fooWrapper.file_results "a.txt" false demoLines).length
        + (fooWrapper.file_results "a.txt" true demoLines).length
      = demoLines.length :=
  (c3_invert_complement fooWrapper "a.txt" demoLines).2.2 (by decide)

/-- C4 is violated by the code: `search_file` pipes the enumerated lines
through rayon's `par_bridge`, whose collection order depends on the runtime
scheduler and is never resequenced, so a run that collects the later lines
first returns the demo file's two matching entries in reverse order — a
different sequence from the sequential scan, though still a permutation of
it.  The reversing scheduler is a legitimate `par_bridge` outcome
(`IsSched`), so the returned sequence is neither the sequential one nor
deterministic across runs. -/
theorem c4_order_not_preserved :
    IsSched revSched
    ∧ fooWrapper.search_file revSched demoFS "a.txt" (some false) none
        = Except.ok (ScanResult.matches
            [⟨"a.txt", 3, "foobar"⟩, ⟨"a.txt", 1, "foo"⟩])
    ∧ fooWrapper.search_file seqSched demoFS "a.txt" (some false) none
        = Except.ok (ScanResult.matches
            [⟨"a.txt", 1, "foo"⟩, ⟨"a.txt", 3, "foobar"⟩])
    ∧ fooWrapper.search_file revSched demoFS "a.txt" (some false) none
        ≠ fooWrapper.search_file seqSched demoFS "a.txt" (some false) none :=
  ⟨fun w => w.reverse_perm, by decide, by decide, by decide⟩

/-- C8: `search_dir` is best-effort — an unreadable entry anywhere in the
walk, and a regular-file entry whose open fails, change nothing: the call
(which by its return type cannot fail) returns exactly what it returns for
the walk without the bad entry, i.e. all matches of the readable files. -/
theorem c8_best_effort (self : MatcherWrapper) (fs : FS) (w1 w2 : WalkResult)
    (count invert_match : Option Bool) (p : String) (err : String)
    (hopen : fs p = Except.error err) :
    (∀ msg, self.search_dir fs (w1 ++ Except.error msg :: w2) count invert_match
        = self.search_dir fs (w1 ++ w2) count invert_match)
    ∧ self.search_dir fs (w1 ++ Except.ok ⟨p, true⟩ :: w2) count invert_match
        = self.search_dir fs (w1 ++ w2) count invert_match := by
  have hskip : ∀ msg invert,
      self.dir_results fs (w1 ++ Except.error msg :: w2) invert
        = self.dir_results fs (w1 ++ w2) invert := by
    intro msg invert
    unfold MatcherWrapper.dir_results
    rw [List.filterMap_append, List.filterMap_append, List.filterMap_cons]
    rfl
  have hfail : ∀ invert,
      self.dir_results fs (w1 ++ Except.ok ⟨p, true⟩ :: w2) invert
        = self.dir_results fs (w1 ++ w2) invert := by
    intro invert
    unfold MatcherWrapper.dir_results
    rw [List.filterMap_append, List.filterMap_append, List.filterMap_cons]
    show ((((w1.filterMap Except.toOption)
        ++ (⟨p, true⟩ : DirEntry) :: w2.filterMap Except.toOption).filter
          (fun x => x.is_file)).map DirEntry.path).flatMap _ = _
    rw [List.filter_append, List.filter_cons]
    simp only [List.map_append, List.flatMap_append, List.filter_append,
      List.map_cons, List.flatMap_cons, if_pos]
    rw [hopen]
    simp
  constructor
  · intro msg
    unfold MatcherWrapper.search_dir
    rw [hskip msg]
  · unfold MatcherWrapper.search_dir
    rw [hfail]

/-- Witness for C8: inserting the unreadable file "locked.txt" after the
readable demo file leaves the search outcome unchanged. -/
theorem c8_best_effort_witness :
    fooWrapper.search_dir demoFS
        ([Except.ok ⟨"a.txt", true⟩] ++ Except.ok ⟨"locked.txt", true⟩ :: [])
        (some true) none
      = fooWrapper.search_dir demoFS ([Except.ok ⟨"a.txt", true⟩] ++ [])
        (some true) none :=
  (c8_best_effort fooWrapper demoFS [Except.ok ⟨"a.txt", true⟩] []
    (some true) none "locked.txt" "No such file" rfl).2

end Rgpy
